import Mathlib

/-!
Shallow embedding of the hinton compiler core (hinton-lang/hinton).

Source files embedded:
  * `src/compiler/expressions.rs` — expression lowering (literals, unary,
    binary, short-circuit logic, ternary, identifiers via `named_variable`,
    property get/set, array/tuple literals, indexing, calls).
  * `src/compiler/functions.rs` — function emission (`emit_function`),
    return statements (`compile_return_stmt` / `emit_return`).
  * `src/compiler/statements.rs` — an older, single-pass variant of the
    compiler (Lox-style); embedded under the `Legacy` namespace.
  * `src/objects/mod.rs` — the runtime `Object` value type (`is_falsey`).

Parts of the repository that the source files call into but that are not
present under `src/` (the compiler driver `mod.rs`, `bytecode.rs`,
`symbols.rs`, `errors.rs`) are modelled from the specification; each such
definition carries a doc comment starting with `Modelled from the spec:`.

Machine integers are modelled as `Nat`/`Int` with explicit `% 2^w`
reductions at the Rust `as` cast sites.
-/

/-- A source position `(line_num, column_num)`. -/
abbrev Pos := Nat × Nat

/-- A lexer token, as used by the compiler: its lexeme and position
(`lexer/tokens.rs` is referenced by interface only). -/
structure Token where
  lexeme : String
  line_num : Nat
  column_num : Nat
deriving DecidableEq, Repr

/-- The bytecode operation codes (`bytecode::OpCode`).  The numeric
discriminants live in `bytecode.rs` (not under `src/`); only the opcode
identities matter to the compiler, so opcodes are kept symbolic.  The
variant names are the ones used by the source files under `src/`, plus
`LoadConstant`/`LoadConstantLong` from the spec's opcode list. -/
inductive OpCode where
  | LoadImmTrue | LoadImmFalse | LoadImmNull
  | LoadImm0I | LoadImm1I | LoadImm0F | LoadImm1F
  | LoadImmN | LoadImmNLong
  | LoadConstant | LoadConstantLong
  | Negate | LogicNot | BitwiseNot
  | Add | Subtract | Multiply | Divide | Modulus | Expo
  | BitwiseAnd | BitwiseOr | BitwiseXor | BitwiseShiftLeft | BitwiseShiftRight
  | NullishCoalescing | MakeRange
  | Equals | NotEq | GreaterThan | GreaterThanEq | LessThan | LessThanEq
  | Jump | JumpIfFalsePop | JumpIfFalseOrPop | JumpIfTrueOrPop | LoopJump
  | GetGlobal | GetGlobalLong | SetGlobal | SetGlobalLong
  | GetLocal | GetLocalLong | SetLocal | SetLocalLong
  | GetUpVal | GetUpValLong | SetUpVal | SetUpValLong
  | GetProp | GetPropLong | SetProp | SetPropLong
  | Indexing
  | MakeArray | MakeArrayLong | MakeTuple | MakeTupleLong
  | FuncCall | MakeInstance
  | MakeClosure | MakeClosureLarge | MakeClosureLong | MakeClosureLongLarge
  | CloseUpVal | CloseUpValLong
  | BindDefaults | DefineGlobal | DefineGlobalLong
  | Return | Pop | PopN
deriving DecidableEq, Repr

/-- One byte of an emitted chunk.  The chunk byte stream is a sequence of
opcode bytes and raw operand bytes; opcodes are kept symbolic (their
numeric encoding lives in `bytecode.rs`, outside `src/`), raw operand
bytes are `Nat` values already reduced modulo 256 at the cast sites. -/
inductive CByte where
  | op (o : OpCode)
  | raw (b : Nat)
deriving DecidableEq, Repr

/-- A model of an IEEE-754 64-bit float restricted to what the embedded
code observes: the source only compares floats against `0f64` and `1f64`
(IEEE equality), so a float is either a numeric value (with `-0.0`
identified with `0.0`, as IEEE equality does) or a NaN (which IEEE
equality makes unequal to everything). -/
inductive F64 where
  | num (q : Rat)
  | nan
deriving DecidableEq, Repr

/-- IEEE test `x == 0f64` on the float model: false on NaN. -/
def F64.isZero : F64 → Bool
  | .num q => q == 0
  | .nan => false

/-- IEEE test `x == 1f64` on the float model: false on NaN. -/
def F64.isOne : F64 → Bool
  | .num q => q == 1
  | .nan => false

mutual
/-- The runtime value type (`Object` in `src/objects/mod.rs`).  All 17
variants of the source enum are present.  Payloads that no embedded code
inspects (classes, instances, iterators, bound methods, natives) are
reduced to the data the embedded code can observe; reference-counted
cells are dropped (`Rc<RefCell<..>>` payloads become plain values). -/
inductive Object where
  | Array (elems : List Object)
  | Bool (b : Bool)
  | BoundMethod
  | BoundNativeMethod (class_name method_name : String)
  | Class (name : String)
  | Closure (function : FuncObject)
  | Dict (entries : List (String × Object))
  | Float (x : F64)
  | Function (f : FuncObject)
  | Instance (class_name : String)
  | Int (x : Int)
  | Iter
  | Native (name : String)
  | Null
  | Range (min max : Int)
  | String (s : String)
  | Tuple (elems : List Object)

/-- A compiled function object (`FuncObject` in `src/objects/mod.rs`). -/
inductive FuncObject where
  | mk (defaults : List Object) (min_arity max_arity : Nat)
       (chunk : Chunk) (name : String) (up_val_count : Nat)

/-- A bytecode chunk: byte stream, parallel position stream, constant
pool.  Modelled from the spec: `bytecode.rs` is not under `src/`; §3
gives `Chunk = (bytes, lines, constants)` with `|bytes| = |lines|`. -/
inductive Chunk where
  | mk (bytes : List CByte) (positions : List Pos) (constants : List Object)
end

/-- The byte stream of a chunk. -/
def Chunk.bytes : Chunk → List CByte
  | .mk b _ _ => b

/-- The position stream of a chunk. -/
def Chunk.positions : Chunk → List Pos
  | .mk _ p _ => p

/-- The constant pool of a chunk. -/
def Chunk.constants : Chunk → List Object
  | .mk _ _ c => c

/-- Append one byte (with its position) to a chunk. -/
def Chunk.appendByte : Chunk → CByte → Pos → Chunk
  | .mk bs ps cs, b, p => .mk (bs ++ [b]) (ps ++ [p]) cs

/-- Append one constant to a chunk's pool. -/
def Chunk.appendConst : Chunk → Object → Chunk
  | .mk bs ps cs, o => .mk bs ps (cs ++ [o])

/-- Overwrite the byte at an offset (used by jump patching). -/
def Chunk.setByte : Chunk → Nat → CByte → Chunk
  | .mk bs ps cs, i, b => .mk (bs.set i b) ps cs

/-- The empty chunk. -/
def Chunk.empty : Chunk := .mk [] [] []

/-- Diagnostic kinds.  The variants used by the source files under `src/`
are the syntax kind (written `Syntax` in the source; renamed here to
`SyntaxErr`) and `MaxCapacity`.  The remaining variants are Modelled from
the spec: the diagnostics list of §6 (`errors.rs` is not under `src/`);
the spec's `CapacityExceeded` is its name for the source's `MaxCapacity`. -/
inductive CompilerErrorType where
  | SyntaxErr
  | MaxCapacity
  | DuplicateLocal
  | DuplicateGlobal
  | UseBeforeInit
  | UndeclaredAssignment
  | JumpOutOfRange
  | TooManyUpValues
  | TooManyArgs
  | OrphanLoopControl
  | ReturnOutsideFunction
  | UnusedSymbol
deriving DecidableEq, Repr

/-- A reported diagnostic: kind, message, and the token it points at. -/
structure CompilerError where
  err_type : CompilerErrorType
  message : String
  token : Token
deriving DecidableEq

/-- Whether the compiler is currently compiling the top-level script or a
function body (`CompilerType` in the compiler driver; both variants are
named in `src/compiler/functions.rs`). -/
inductive CompilerType where
  | Script
  | Function
deriving DecidableEq, Repr

/-- A symbol-table record (`Symbol` in `symbols.rs`; the name `Symbol` is
taken in Lean, hence `SymbolInfo`).  Modelled from the spec: §3 gives
`(name, kind, depth, initialized, used, captured, position)`
(`symbols.rs` is not under `src/`). -/
structure SymbolInfo where
  name : String
  depth : Nat
  is_initialized : Bool
  is_used : Bool
  is_captured : Bool
  line_info : Pos

/-- The resolved location of a symbol (`SL` in `symbols.rs`, not under
`src/`).  Modelled from the spec: §4.2 resolves every name to one of
global, local, or upvalue, or fails; `named_variable` in
`src/compiler/expressions.rs` only reads the slot index and ignores the
symbol payload, so the payload is omitted here. -/
inductive SL where
  | Global (p : Nat)
  | Local (p : Nat)
  | UpValue (p : Nat)
  | NotFound
deriving DecidableEq, Repr

/-- A compile-time upvalue descriptor (`UpValue` in the compiler driver,
not under `src/`).  Modelled from the spec: §3 gives
`(is_local : bool, index : uint)`. -/
structure UpValue where
  is_local : Bool
  index : Nat
deriving DecidableEq, Repr

/-- The slice of compiler state the embedded operations touch: the chunk
of the function currently being compiled, the diagnostics list, the
compiler type, the current symbol table and relative scope depth. -/
structure CompilerState where
  chunk : Chunk
  errors : List CompilerError
  compiler_type : CompilerType
  symbols : List SymbolInfo
  relative_depth : Nat

/-- Rust `as u8` on a `usize`/`u16` value. -/
def usize_as_u8 (n : Nat) : Nat := n % 256

/-- Rust `as u16` on a `usize` value. -/
def usize_as_u16 (n : Nat) : Nat := n % 65536

/-- Rust `as u8` on an `i64` value. -/
def i64_as_u8 (x : Int) : Nat := (x % 256).toNat

/-- Rust `as u16` on an `i64` value. -/
def i64_as_u16 (x : Int) : Nat := (x % 65536).toNat

/-- Modelled from the spec: `emit_op(op, pos)` appends one opcode byte and
its position (§4.1; the emitter lives outside `src/`). -/
def emit_op_code (op : OpCode) (pos : Pos) (st : CompilerState) : CompilerState :=
  { st with chunk := st.chunk.appendByte (.op op) pos }

/-- Modelled from the spec: `emit_raw_byte(value, pos)` appends one raw
operand byte (§4.1). -/
def emit_raw_byte (b : Nat) (pos : Pos) (st : CompilerState) : CompilerState :=
  { st with chunk := st.chunk.appendByte (.raw b) pos }

/-- Modelled from the spec: `emit_raw_short(value, pos)` appends two raw
operand bytes in big-endian order (§4.1). -/
def emit_raw_short (s : Nat) (pos : Pos) (st : CompilerState) : CompilerState :=
  emit_raw_byte (s % 256) pos (emit_raw_byte (s / 256) pos st)

/-- Modelled from the spec: `emit_short` — the same raw two-byte
big-endian append, under the name used at the tuple-literal call site. -/
def emit_short (s : Nat) (pos : Pos) (st : CompilerState) : CompilerState :=
  emit_raw_short s pos st

/-- Modelled from the spec: `emit_op_with_byte(op, u8, pos)` appends the
opcode then one operand byte (§4.1). -/
def emit_op_code_with_byte (op : OpCode) (b : Nat) (pos : Pos) (st : CompilerState) : CompilerState :=
  emit_raw_byte b pos (emit_op_code op pos st)

/-- Modelled from the spec: `emit_op_with_short(op, u16, pos)` appends the
opcode then two operand bytes in big-endian order (§4.1). -/
def emit_op_code_with_short (op : OpCode) (s : Nat) (pos : Pos) (st : CompilerState) : CompilerState :=
  emit_raw_short s pos (emit_op_code op pos st)

/-- Modelled from the spec: `error_at_token` reports a diagnostic in
place (§7: errors are reported to the diagnostic sink and compilation
continues).  The panic-mode duplicate suppression of §7 is not modelled;
every embedded scenario starts outside panic mode. -/
def error_at_token (token : Token) (etype : CompilerErrorType) (message : String)
    (st : CompilerState) : CompilerState :=
  { st with errors := st.errors ++ [⟨etype, message, token⟩] }

/-- Index of the first string constant equal to `s` in a pool, if any. -/
def findStringIdx (pool : List Object) (s : String) : Option Nat :=
  pool.findIdx? (fun o => match o with | .String t => t == s | _ => false)

/-- Modelled from the spec: `add_constant(value) → index | Overflow`
appends if new, deduplicates string constants by value, and enforces
`index < 2^16` (§4.1). -/
def add_constant (chunk : Chunk) (obj : Object) : Chunk × Option Nat :=
  match obj with
  | .String s =>
      match findStringIdx chunk.constants s with
      | some i => (chunk, some i)
      | none =>
          if chunk.constants.length < 65536
          then (chunk.appendConst obj, some chunk.constants.length)
          else (chunk, none)
  | _ =>
      if chunk.constants.length < 65536
      then (chunk.appendConst obj, some chunk.constants.length)
      else (chunk, none)

/-- Modelled from the spec: `add_literal_to_pool(obj, token, load)` (the
compiler driver, outside `src/`) adds `obj` via `add_constant`; on
overflow it reports `MaxCapacity` (the spec's `CapacityExceeded`) and
returns no index; when `load` is set it emits `LoadConstant` with a
1-byte operand for indices below 256 and `LoadConstantLong` with a 2-byte
operand otherwise (§4.1 short-vs-long rule, §4.3 literals). -/
def add_literal_to_pool (obj : Object) (token : Token) (load : Bool)
    (st : CompilerState) : CompilerState × Option Nat :=
  match add_constant st.chunk obj with
  | (c, some idx) =>
      let st := { st with chunk := c }
      let pos := (token.line_num, token.column_num)
      if load then
        if idx < 256
        then (emit_op_code_with_byte .LoadConstant (usize_as_u8 idx) pos st, some idx)
        else (emit_op_code_with_short .LoadConstantLong (usize_as_u16 idx) pos st, some idx)
      else (st, some idx)
  | (_, none) =>
      (error_at_token token .MaxCapacity "Too many constants in one chunk." st, none)

/-- The ambient boolean type, under a name the `Object` namespace does not
shadow (the `Object.Bool` constructor shadows `Bool` there). -/
abbrev RBool := Bool

/-- `Object::is_falsey` from `src/objects/mod.rs`: null, `false`, the
integer zero and the float zero are falsey; everything else is truthy. -/
def Object.is_falsey : Object → RBool
  | .Null => true
  | .Bool val => !val
  | .Int x => x == 0
  | .Float x => x.isZero
  | _ => false

/-- `compile_literal_expr` from `src/compiler/expressions.rs`.  The match
arms follow the source: dedicated opcodes for `true`, `false`, `0`, `1`,
`0.0`, `1.0` and `null`; integers above 1 use `LoadImmN` when below 256
and `LoadImmNLong` when below `u16::MAX` (strictly below 65535); every
other literal is loaded from the constant pool. -/
def compile_literal_expr (value : Object) (token : Token) (st : CompilerState) : CompilerState :=
  let opr_pos : Pos := (token.line_num, token.column_num)
  match value with
  | .Bool true => emit_op_code .LoadImmTrue opr_pos st
  | .Bool false => emit_op_code .LoadImmFalse opr_pos st
  | .Int x =>
      if x = 0 then emit_op_code .LoadImm0I opr_pos st
      else if x = 1 then emit_op_code .LoadImm1I opr_pos st
      else if 1 < x then
        if x < 256 then emit_op_code_with_byte .LoadImmN (i64_as_u8 x) opr_pos st
        else if x < 65535 then emit_op_code_with_short .LoadImmNLong (i64_as_u16 x) opr_pos st
        else (add_literal_to_pool (.Int x) token true st).1
      else (add_literal_to_pool (.Int x) token true st).1
  | .Float x =>
      if x.isZero then emit_op_code .LoadImm0F opr_pos st
      else if x.isOne then emit_op_code .LoadImm1F opr_pos st
      else (add_literal_to_pool (.Float x) token true st).1
  | .Null => emit_op_code .LoadImmNull opr_pos st
  | other => (add_literal_to_pool other token true st).1

/-- The unary operator kinds (`UnaryExprType` in `ast.rs`, referenced by
interface; the three variants are named in `src/compiler/expressions.rs`). -/
inductive UnaryExprType where
  | ArithmeticNeg | LogicNeg | BitwiseNeg
deriving DecidableEq, Repr

/-- The binary operator kinds (`BinaryExprType` in `ast.rs`; all 21
variants are named in `src/compiler/expressions.rs`). -/
inductive BinaryExprType where
  | Addition | BitwiseAND | BitwiseOR | BitwiseShiftLeft | BitwiseShiftRight
  | BitwiseXOR | Division | Expo | LogicAND | LogicEQ | LogicGreaterThan
  | LogicGreaterThanEQ | LogicLessThan | LogicLessThanEQ | LogicNotEQ
  | LogicOR | Minus | Modulus | Multiplication | Nullish | Range
deriving DecidableEq, Repr

/-- The compound-assignment operator kinds (`ReassignmentType` in
`ast.rs`; all variants are named in `src/compiler/expressions.rs`). -/
inductive ReassignmentType where
  | Plus | Minus | Div | Mul | Expo | Mod | ShiftL | ShiftR
  | BitAnd | Xor | BitOr | None
deriving DecidableEq, Repr

/-- The unary-operator opcode selection of `compile_unary_expr`
(`src/compiler/expressions.rs`). -/
def unary_op_code : UnaryExprType → OpCode
  | .ArithmeticNeg => .Negate
  | .LogicNeg => .LogicNot
  | .BitwiseNeg => .BitwiseNot

/-- The binary-operator opcode selection of `compile_binary_expr`
(`src/compiler/expressions.rs`).  `LogicAND` and `LogicOR` are
`unreachable!` in the source (they are routed to the short-circuit
lowering first); here they map to `none`. -/
def binary_op_code : BinaryExprType → Option OpCode
  | .BitwiseAND => some .BitwiseAnd
  | .BitwiseOR => some .BitwiseOr
  | .BitwiseShiftLeft => some .BitwiseShiftLeft
  | .BitwiseShiftRight => some .BitwiseShiftRight
  | .BitwiseXOR => some .BitwiseXor
  | .Division => some .Divide
  | .Expo => some .Expo
  | .LogicAND => none
  | .LogicEQ => some .Equals
  | .LogicGreaterThan => some .GreaterThan
  | .LogicGreaterThanEQ => some .GreaterThanEq
  | .LogicLessThan => some .LessThan
  | .LogicLessThanEQ => some .LessThanEq
  | .LogicNotEQ => some .NotEq
  | .LogicOR => none
  | .Minus => some .Subtract
  | .Modulus => some .Modulus
  | .Multiplication => some .Multiply
  | .Nullish => some .NullishCoalescing
  | .Addition => some .Add
  | .Range => some .MakeRange

/-- The compound-assignment opcode emission shared by
`compile_var_reassignment_expr` and `compile_object_setter_expr`
(`src/compiler/expressions.rs`): one arithmetic/bitwise opcode per
`ReassignmentType`, nothing for `None`. -/
def emit_reassign_op (rt : ReassignmentType) (pos : Pos) (st : CompilerState) : CompilerState :=
  match rt with
  | .Plus => emit_op_code .Add pos st
  | .Minus => emit_op_code .Subtract pos st
  | .Div => emit_op_code .Divide pos st
  | .Mul => emit_op_code .Multiply pos st
  | .Expo => emit_op_code .Expo pos st
  | .Mod => emit_op_code .Modulus pos st
  | .ShiftL => emit_op_code .BitwiseShiftLeft pos st
  | .ShiftR => emit_op_code .BitwiseShiftRight pos st
  | .BitAnd => emit_op_code .BitwiseAnd pos st
  | .Xor => emit_op_code .BitwiseXor pos st
  | .BitOr => emit_op_code .BitwiseOr pos st
  | .None => st

/-- Modelled from the spec: `emit_jump(op, pos)` emits the opcode plus two
placeholder bytes and returns the offset of the placeholder (§4.1). -/
def emit_jump (op : OpCode) (token : Token) (st : CompilerState) : CompilerState × Nat :=
  let pos : Pos := (token.line_num, token.column_num)
  let st := emit_op_code op pos st
  let site := st.chunk.bytes.length
  (emit_raw_byte 0 pos (emit_raw_byte 0 pos st), site)

/-- Modelled from the spec: `patch_jump(patch_site, pos)` computes
`current_offset - (patch_site + 2)`, writes it big-endian into the
placeholder, and fails with the spec's `JumpOutOfRange` when the delta
exceeds `2^16 - 1` (§4.1). -/
def patch_jump (site : Nat) (token : Token) (st : CompilerState) : CompilerState :=
  let delta := st.chunk.bytes.length - (site + 2)
  if delta ≤ 65535 then
    { st with chunk := (st.chunk.setByte site (.raw (delta / 256))).setByte (site + 1) (.raw (delta % 256)) }
  else error_at_token token .JumpOutOfRange "Too much code to jump over." st

/-- Modelled from the spec: `pop_scope` removes every trailing symbol
whose depth is at least the given depth and yields, per removed symbol,
its captured flag, in declaration order (§3, scope stack). -/
def pop_scope (d : Nat) (syms : List SymbolInfo) : List SymbolInfo × List Bool :=
  let removed := (syms.reverse.takeWhile (fun s => d ≤ s.depth)).reverse
  (syms.take (syms.length - removed.length), removed.map (·.is_captured))

/-- The close-upvalue loop of `emit_return`
(`src/compiler/functions.rs`): iterate the popped captured flags in
reverse declaration order with a running counter `i`, emitting
`CloseUpVal i` (byte form below 256, long form otherwise) for each
captured local.  The argument list is the already-reversed flag list. -/
def emit_close_up_vals : List Bool → Nat → Pos → CompilerState → CompilerState
  | [], _, _, st => st
  | c :: rest, i, pos, st =>
      let st :=
        if c then
          if i < 256 then emit_op_code_with_byte .CloseUpVal (usize_as_u8 i) pos st
          else emit_op_code_with_short .CloseUpValLong (usize_as_u16 i) pos st
        else st
      emit_close_up_vals rest (i + 1) pos st

/-- The shared short-vs-long emission at the end of `named_variable`
(`src/compiler/expressions.rs`): 1-byte operand when the index is below
256, else the long opcode with a 2-byte operand. -/
def emit_var_op (op_name op_name_long : OpCode) (idx : Nat) (pos : Pos) (st : CompilerState) : CompilerState :=
  if idx < 256 then emit_op_code_with_byte op_name (usize_as_u8 idx) pos st
  else emit_op_code_with_short op_name_long (usize_as_u16 idx) pos st

/-- `named_variable` from `src/compiler/expressions.rs`: select the
get/set opcode pair from the resolved symbol location, then emit the
short or long form by index width. -/
def named_variable (symbol_loc : SL) (token : Token) (to_set : Bool) (st : CompilerState) : CompilerState :=
  let pos : Pos := (token.line_num, token.column_num)
  match symbol_loc with
  | .Global p =>
      if to_set then emit_var_op .SetGlobal .SetGlobalLong p pos st
      else emit_var_op .GetGlobal .GetGlobalLong p pos st
  | .Local p =>
      if to_set then emit_var_op .SetLocal .SetLocalLong p pos st
      else emit_var_op .GetLocal .GetLocalLong p pos st
  | .UpValue p =>
      if to_set then emit_var_op .SetUpVal .SetUpValLong p pos st
      else emit_var_op .GetUpVal .GetUpValLong p pos st
  | .NotFound => st

/-- The upvalue-descriptor loop of `emit_function` for the 1-byte-index
forms (`MakeClosure`/`MakeClosureLong` in `src/compiler/functions.rs`):
per upvalue, one `is_local` byte (1/0) then `index as u8`. -/
def emit_upvals_byte_idx : List UpValue → Pos → CompilerState → CompilerState
  | [], _, st => st
  | u :: rest, pos, st =>
      emit_upvals_byte_idx rest pos
        (emit_raw_byte (usize_as_u8 u.index) pos
          (emit_raw_byte (if u.is_local then 1 else 0) pos st))

/-- The upvalue-descriptor loop of `emit_function` for the 2-byte-index
forms (`MakeClosureLarge`/`MakeClosureLongLarge`): per upvalue, one
`is_local` byte (1/0) then `index as u16` big-endian. -/
def emit_upvals_short_idx : List UpValue → Pos → CompilerState → CompilerState
  | [], _, st => st
  | u :: rest, pos, st =>
      emit_upvals_short_idx rest pos
        (emit_raw_short (usize_as_u16 u.index) pos
          (emit_raw_byte (if u.is_local then 1 else 0) pos st))

/-- `emit_function` from `src/compiler/functions.rs`: a function with no
upvalues is added to the parent pool as a plain constant and loaded;
otherwise one of the four `MakeClosure` variants is emitted, selected by
constant-index width and upvalue-count width, followed by the encoded
upvalue list. -/
def emit_function (function : FuncObject) (up_values : List UpValue) (token : Token)
    (st : CompilerState) : CompilerState :=
  let func := Object.Function function
  if up_values.length = 0 then
    (add_literal_to_pool func token true st).1
  else
    let func_pos : Pos := (token.line_num, token.column_num)
    match add_literal_to_pool func token false st with
    | (st, some idx) =>
        if idx < 256 then
          if up_values.length < 256 then
            emit_upvals_byte_idx up_values func_pos
              (emit_op_code_with_byte .MakeClosure (usize_as_u8 idx) func_pos st)
          else
            emit_upvals_short_idx up_values func_pos
              (emit_op_code_with_byte .MakeClosureLarge (usize_as_u8 idx) func_pos st)
        else
          if up_values.length < 256 then
            emit_upvals_byte_idx up_values func_pos
              (emit_op_code_with_short .MakeClosureLong idx func_pos st)
          else
            emit_upvals_short_idx up_values func_pos
              (emit_op_code_with_short .MakeClosureLongLarge idx func_pos st)
    | (st, none) => st

/-- The AST fragment the embedded handlers consume (`ast.rs` is
referenced by interface).  Node payloads follow the source node structs;
`FunctionCallExpr.args` holds each argument's value expression (the
source's `Argument` wrapper adds only a parameter name the compiler does
not read here).  Identifier and declaration nodes are omitted: their
lowering goes through the symbol resolver (`symbols.rs`, outside
`src/`), and the claims address `named_variable` directly. -/
inductive ASTNode where
  | Literal (value : Object) (token : Token)
  | Unary (operand : ASTNode) (opr_type : UnaryExprType) (pos : Pos)
  | Binary (left : ASTNode) (right : ASTNode) (opr_type : BinaryExprType) (opr_token : Token)
  | TernaryConditional (condition : ASTNode) (branch_true : ASTNode) (branch_false : ASTNode)
      (true_branch_token : Token) (false_branch_token : Token)
  | ObjectGetter (target : ASTNode) (getter : Token)
  | ObjectSetter (target : ASTNode) (setter : Token) (value : ASTNode) (opr_type : ReassignmentType)
  | ArrayExpr (values : List ASTNode) (token : Token)
  | TupleExpr (values : List ASTNode) (token : Token)
  | ArrayIndexing (target : ASTNode) (index : ASTNode) (pos : Pos)
  | FunctionCallExpr (target : ASTNode) (args : List ASTNode) (pos : Pos)
  | NewInstance (target : ASTNode) (args : List ASTNode) (pos : Pos)
  | ReturnStmt (token : Token) (value : Option ASTNode)
  | IfStmt (condition : ASTNode) (then_token : Token) (then_branch : ASTNode)
      (else_branch : Option ASTNode) (else_token : Option Token)

mutual
/-- The per-node dispatch of the compiler driver together with the node
handlers of `src/compiler/expressions.rs` and
`src/compiler/functions.rs`.  The dispatch itself is Modelled from the
spec (§4.3, §4.4: one handler per node kind); each arm's body is the
corresponding source handler.  Two handlers are inlined rather than
delegated, to keep the recursion structural:
  * the ternary arm — the source's `compile_ternary_conditional_expr`
    builds an `IfStmtNode` from the ternary's parts and calls
    `compile_if_stmt`; here the (identical) if-lowering is inlined, and
    the delegation is recovered as a theorem;
  * the getter recompilation inside the compound object-setter arm — the
    source builds an `ObjectGetExprNode { target, getter: setter }` and
    calls `compile_object_getter_expr`.
`compile_if_stmt` itself is Modelled from the spec (§4.4:
compile condition, `JumpIfFalsePop` forward jump, then-branch, `Jump`,
patch false-site, else-branch if present, patch end-site), since the
if-statement handler lives outside `src/`; jump positions are taken at
the then-token. -/
def compile_node (node : ASTNode) (st : CompilerState) : CompilerState :=
  match node with
  | .Literal value token => compile_literal_expr value token st
  | .Unary operand opr_type pos =>
      emit_op_code (unary_op_code opr_type) pos (compile_node operand st)
  | .Binary left right opr_type opr_token =>
      match opr_type with
      | .LogicAND =>
          let st := compile_node left st
          let r := emit_jump .JumpIfFalseOrPop opr_token st
          let st := compile_node right r.1
          patch_jump r.2 opr_token st
      | .LogicOR =>
          let st := compile_node left st
          let r := emit_jump .JumpIfTrueOrPop opr_token st
          let st := compile_node right r.1
          patch_jump r.2 opr_token st
      | _ =>
          let st := compile_node left st
          let st := compile_node right st
          match binary_op_code opr_type with
          | some oc => emit_op_code oc (opr_token.line_num, opr_token.column_num) st
          | none => st
  | .TernaryConditional condition branch_true branch_false true_tok _false_tok =>
      let st := compile_node condition st
      let rf := emit_jump .JumpIfFalsePop true_tok st
      let st := compile_node branch_true rf.1
      let re := emit_jump .Jump true_tok st
      let st := patch_jump rf.2 true_tok re.1
      let st := compile_node branch_false st
      patch_jump re.2 true_tok st
  | .IfStmt condition then_token then_branch else_branch _else_token =>
      let st := compile_node condition st
      let rf := emit_jump .JumpIfFalsePop then_token st
      let st := compile_node then_branch rf.1
      let re := emit_jump .Jump then_token st
      let st := patch_jump rf.2 then_token re.1
      let st :=
        match else_branch with
        | some e => compile_node e st
        | none => st
      patch_jump re.2 then_token st
  | .ObjectGetter target getter =>
      let st := compile_node target st
      let prop_lineno : Pos := (getter.line_num, getter.column_num)
      match add_literal_to_pool (.String getter.lexeme) getter false st with
      | (st, some pos) =>
          if pos < 256 then emit_op_code_with_byte .GetProp (usize_as_u8 pos) prop_lineno st
          else emit_op_code_with_short .GetPropLong pos prop_lineno st
      | (st, none) => st
  | .ObjectSetter target setter value opr_type =>
      let st := compile_node target st
      let prop_lineno : Pos := (setter.line_num, setter.column_num)
      match add_literal_to_pool (.String setter.lexeme) setter false st with
      | (st, some pos) =>
          let st :=
            match opr_type with
            | .None => compile_node value st
            | _ =>
                let st := compile_node target st
                let st :=
                  match add_literal_to_pool (.String setter.lexeme) setter false st with
                  | (st, some gpos) =>
                      if gpos < 256 then
                        emit_op_code_with_byte .GetProp (usize_as_u8 gpos) prop_lineno st
                      else emit_op_code_with_short .GetPropLong gpos prop_lineno st
                  | (st, none) => st
                let st := compile_node value st
                emit_reassign_op opr_type prop_lineno st
          if pos < 256 then emit_op_code_with_byte .SetProp (usize_as_u8 pos) prop_lineno st
          else emit_op_code_with_short .SetPropLong pos prop_lineno st
      | (st, none) => st
  | .ArrayExpr values token =>
      if values.length ≤ 65535 then
        let line_info : Pos := (token.line_num, token.column_num)
        let st := compile_nodes_rev values st
        if values.length < 256 then
          emit_op_code_with_byte .MakeArray (usize_as_u8 values.length) line_info st
        else
          emit_op_code_with_short .MakeArrayLong (usize_as_u16 values.length) line_info st
      else error_at_token token .MaxCapacity "Too many values in the array." st
  | .TupleExpr values token =>
      if values.length ≤ 65535 then
        let line_info : Pos := (token.line_num, token.column_num)
        let st := compile_nodes_rev values st
        if values.length < 256 then
          emit_raw_byte (usize_as_u8 values.length) line_info (emit_op_code .MakeTuple line_info st)
        else
          emit_short (usize_as_u16 values.length) line_info (emit_op_code .MakeTupleLong line_info st)
      else error_at_token token .MaxCapacity "Too many values in the tuple." st
  | .ArrayIndexing target index pos =>
      let st := compile_node target st
      let st := compile_node index st
      emit_op_code .Indexing pos st
  | .FunctionCallExpr target args pos =>
      let st := compile_node target st
      let st := compile_nodes_fwd args st
      emit_op_code_with_byte .FuncCall (usize_as_u8 args.length) pos st
  | .NewInstance target args pos =>
      let st := compile_node target st
      let st := compile_nodes_fwd args st
      emit_op_code_with_byte .MakeInstance (usize_as_u8 args.length) pos st
  | .ReturnStmt token value =>
      match st.compiler_type with
      | .Script =>
          error_at_token token .SyntaxErr "Cannot return outside of function." st
      | .Function =>
          let token_pos : Pos := (token.line_num, token.column_num)
          let st :=
            match value with
            | some n => compile_node n st
            | none => emit_op_code .LoadImmNull token_pos st
          let depth := st.relative_depth
          let r := pop_scope depth st.symbols
          let st := { st with symbols := r.1 }
          let st := emit_close_up_vals r.2.reverse 0 token_pos st
          emit_op_code .Return token_pos st

/-- The reversed element loop of `compile_array_expr` /
`compile_tuple_expr` (`for node in expr.values.iter().rev()`): elements
are compiled last-to-first. -/
def compile_nodes_rev (values : List ASTNode) (st : CompilerState) : CompilerState :=
  match values with
  | [] => st
  | v :: rest => compile_node v (compile_nodes_rev rest st)

/-- The forward argument loop of `compile_instance_or_func_call_expr`
(`for arg in expr.args.iter()`): arguments are compiled first-to-last. -/
def compile_nodes_fwd (values : List ASTNode) (st : CompilerState) : CompilerState :=
  match values with
  | [] => st
  | v :: rest => compile_nodes_fwd rest (compile_node v st)
end

/-- `compile_return_stmt` from `src/compiler/functions.rs`, as a named
entry point (the `ReturnStmt` arm of `compile_node`). -/
def compile_return_stmt (token : Token) (value : Option ASTNode) (st : CompilerState) : CompilerState :=
  compile_node (.ReturnStmt token value) st

/-- `compile_if_stmt` (the if-statement handler, outside `src/`), as a
named entry point: the `IfStmt` arm of `compile_node`.  Modelled from the
spec (§4.4). -/
def compile_if_stmt (condition : ASTNode) (then_token : Token) (then_branch : ASTNode)
    (else_branch : Option ASTNode) (else_token : Option Token) (st : CompilerState) : CompilerState :=
  compile_node (.IfStmt condition then_token then_branch else_branch else_token) st

namespace Legacy

/-- Opcodes of the legacy single-pass compiler
(`chunk::op_codes::OpCode`), as used by `src/compiler/statements.rs`. -/
inductive OldOpCode where
  | OP_PRINT | OP_POP_STACK | OP_NULL | OP_DEFINE_GLOBAL_VAR | OP_GET_GLOBAL_VAR
deriving DecidableEq, Repr

/-- One byte of the legacy chunk's stream. -/
inductive OldCByte where
  | op (o : OldOpCode)
  | raw (b : Nat)
deriving DecidableEq, Repr

/-- The result of the legacy `Chunk::add_constant` (`ConstantPos` in the
legacy `chunk.rs`, not under `src/`): a `u16` pool index or an error. -/
inductive ConstantPos where
  | Pos (x : Nat)
  | Error
deriving DecidableEq, Repr

/-- The slice of legacy compiler state the embedded operations touch. -/
structure OldState where
  bytes : List OldCByte
  constants : List Object
  errors : List String

/-- Legacy `emit_op_code`: append one opcode byte. -/
def emit_op_code (op : OldOpCode) (st : OldState) : OldState :=
  { st with bytes := st.bytes ++ [.op op] }

/-- Modelled from the spec: the legacy `emit_short` appends two operand
bytes in big-endian order (§4.1; the legacy `chunk.rs` is not under
`src/`). -/
def emit_short (x : Nat) (st : OldState) : OldState :=
  { st with bytes := st.bytes ++ [.raw (x / 256), .raw (x % 256)] }

/-- Legacy `error_at_current`: report a diagnostic message. -/
def error_at_current (msg : String) (st : OldState) : OldState :=
  { st with errors := st.errors ++ [msg] }

/-- Modelled from the spec: the legacy `Chunk::add_constant` appends if
new, deduplicates string constants by value, and yields
`ConstantPos::Error` when the index would not fit in a `u16` (§4.1). -/
def add_constant (st : OldState) (obj : Object) : OldState × ConstantPos :=
  match obj with
  | .String s =>
      match findStringIdx st.constants s with
      | some i => (st, .Pos i)
      | none =>
          if st.constants.length < 65536
          then ({ st with constants := st.constants ++ [obj] }, .Pos st.constants.length)
          else (st, .Error)
  | _ =>
      if st.constants.length < 65536
      then ({ st with constants := st.constants ++ [obj] }, .Pos st.constants.length)
      else (st, .Error)

/-- Legacy `add_identifier_to_pool` from `src/compiler/statements.rs`:
intern the token's lexeme as a string constant. -/
def add_identifier_to_pool (token : Token) (st : OldState) : OldState × ConstantPos :=
  add_constant st (.String token.lexeme)

/-- Legacy `define_variable` from `src/compiler/statements.rs`: always
`OP_DEFINE_GLOBAL_VAR` followed by a 2-byte operand — no short/long
selection. -/
def define_variable (idx : Nat) (st : OldState) : OldState :=
  emit_short idx (emit_op_code .OP_DEFINE_GLOBAL_VAR st)

/-- Legacy `named_variable` from `src/compiler/statements.rs`: intern the
name, then always `OP_GET_GLOBAL_VAR` followed by a 2-byte operand — no
short/long selection. -/
def named_variable (token : Token) (st : OldState) : OldState :=
  match add_identifier_to_pool token st with
  | (st, .Pos x) => emit_short x (emit_op_code .OP_GET_GLOBAL_VAR st)
  | (st, .Error) => error_at_current "Could not add variable name to constant pool." st

end Legacy


/-- The byte sequence of a `LoadConstant`/`LoadConstantLong` instruction
for a given pool index: the 1-byte form below 256, else the 2-byte form
(big-endian). -/
def load_constant_bytes (idx : Nat) : List CByte :=
  if idx < 256 then [.op .LoadConstant, .raw (usize_as_u8 idx)]
  else [.op .LoadConstantLong, .raw (usize_as_u16 idx / 256), .raw (usize_as_u16 idx % 256)]

/-- The byte sequence emitted by `named_variable` for one reference: the
short opcode with a 1-byte operand when the index is below 256, else the
long opcode with a 2-byte big-endian operand. -/
def var_op_bytes (op op_long : OpCode) (idx : Nat) : List CByte :=
  if idx < 256 then [.op op, .raw (usize_as_u8 idx)]
  else [.op op_long, .raw (usize_as_u16 idx / 256), .raw (usize_as_u16 idx % 256)]

/-- The encoded upvalue list for the 1-byte-index closure forms: per
upvalue, one `is_local` byte (1/0) and `index as u8`. -/
def upval_bytes_b : List UpValue → List CByte
  | [] => []
  | u :: rest =>
      .raw (if u.is_local then 1 else 0) :: .raw (usize_as_u8 u.index) :: upval_bytes_b rest

/-- The encoded upvalue list for the 2-byte-index closure forms: per
upvalue, one `is_local` byte (1/0) and `index as u16` big-endian. -/
def upval_bytes_s : List UpValue → List CByte
  | [] => []
  | u :: rest =>
      .raw (if u.is_local then 1 else 0) :: .raw (usize_as_u16 u.index / 256) ::
        .raw (usize_as_u16 u.index % 256) :: upval_bytes_s rest

/-- A sample token. -/
def tok0 : Token := ⟨"t", 1, 1⟩

/-- A sample property-name token. -/
def tokP : Token := ⟨"p", 2, 5⟩

/-- A fresh top-level (script) compiler state: empty chunk, no
diagnostics, empty symbol table. -/
def st0 : CompilerState := ⟨Chunk.empty, [], .Script, [], 0⟩

/-- A fresh function-body compiler state. -/
def stF : CompilerState := ⟨Chunk.empty, [], .Function, [], 0⟩

/-- A fresh legacy compiler state. -/
def ost0 : Legacy.OldState := ⟨[], [], []⟩

/-- A sample compiled function object. -/
def f0 : FuncObject := .mk [] 0 0 Chunk.empty "f" 0

/-! ### Projection lemmas for the chunk writer and emitter -/

@[simp] theorem Chunk.appendByte_bytes (c : Chunk) (b : CByte) (p : Pos) :
    (c.appendByte b p).bytes = c.bytes ++ [b] := by cases c; rfl

@[simp] theorem Chunk.appendByte_constants (c : Chunk) (b : CByte) (p : Pos) :
    (c.appendByte b p).constants = c.constants := by cases c; rfl

@[simp] theorem Chunk.appendByte_positions (c : Chunk) (b : CByte) (p : Pos) :
    (c.appendByte b p).positions = c.positions ++ [p] := by cases c; rfl

@[simp] theorem Chunk.appendConst_bytes (c : Chunk) (o : Object) :
    (c.appendConst o).bytes = c.bytes := by cases c; rfl

@[simp] theorem Chunk.appendConst_constants (c : Chunk) (o : Object) :
    (c.appendConst o).constants = c.constants ++ [o] := by cases c; rfl

@[simp] theorem emit_op_code_chunk_bytes (op : OpCode) (pos : Pos) (st : CompilerState) :
    (emit_op_code op pos st).chunk.bytes = st.chunk.bytes ++ [.op op] := by
  simp [emit_op_code]

@[simp] theorem emit_op_code_chunk_constants (op : OpCode) (pos : Pos) (st : CompilerState) :
    (emit_op_code op pos st).chunk.constants = st.chunk.constants := by
  simp [emit_op_code]

@[simp] theorem emit_op_code_errors (op : OpCode) (pos : Pos) (st : CompilerState) :
    (emit_op_code op pos st).errors = st.errors := rfl

@[simp] theorem emit_raw_byte_chunk_bytes (b : Nat) (pos : Pos) (st : CompilerState) :
    (emit_raw_byte b pos st).chunk.bytes = st.chunk.bytes ++ [.raw b] := by
  simp [emit_raw_byte]

@[simp] theorem emit_raw_byte_chunk_constants (b : Nat) (pos : Pos) (st : CompilerState) :
    (emit_raw_byte b pos st).chunk.constants = st.chunk.constants := by
  simp [emit_raw_byte]

@[simp] theorem emit_raw_byte_errors (b : Nat) (pos : Pos) (st : CompilerState) :
    (emit_raw_byte b pos st).errors = st.errors := rfl

@[simp] theorem emit_raw_short_chunk_bytes (s : Nat) (pos : Pos) (st : CompilerState) :
    (emit_raw_short s pos st).chunk.bytes = st.chunk.bytes ++ [.raw (s / 256), .raw (s % 256)] := by
  simp [emit_raw_short]

@[simp] theorem emit_raw_short_chunk_constants (s : Nat) (pos : Pos) (st : CompilerState) :
    (emit_raw_short s pos st).chunk.constants = st.chunk.constants := by
  simp [emit_raw_short]

@[simp] theorem emit_raw_short_errors (s : Nat) (pos : Pos) (st : CompilerState) :
    (emit_raw_short s pos st).errors = st.errors := rfl

@[simp] theorem emit_op_code_with_byte_chunk_bytes (op : OpCode) (b : Nat) (pos : Pos) (st : CompilerState) :
    (emit_op_code_with_byte op b pos st).chunk.bytes = st.chunk.bytes ++ [.op op, .raw b] := by
  simp [emit_op_code_with_byte]

@[simp] theorem emit_op_code_with_byte_chunk_constants (op : OpCode) (b : Nat) (pos : Pos) (st : CompilerState) :
    (emit_op_code_with_byte op b pos st).chunk.constants = st.chunk.constants := by
  simp [emit_op_code_with_byte]

@[simp] theorem emit_op_code_with_byte_errors (op : OpCode) (b : Nat) (pos : Pos) (st : CompilerState) :
    (emit_op_code_with_byte op b pos st).errors = st.errors := rfl

@[simp] theorem emit_op_code_with_short_chunk_bytes (op : OpCode) (s : Nat) (pos : Pos) (st : CompilerState) :
    (emit_op_code_with_short op s pos st).chunk.bytes =
      st.chunk.bytes ++ [.op op, .raw (s / 256), .raw (s % 256)] := by
  simp [emit_op_code_with_short]

@[simp] theorem emit_op_code_with_short_chunk_constants (op : OpCode) (s : Nat) (pos : Pos) (st : CompilerState) :
    (emit_op_code_with_short op s pos st).chunk.constants = st.chunk.constants := by
  simp [emit_op_code_with_short]

@[simp] theorem emit_op_code_with_short_errors (op : OpCode) (s : Nat) (pos : Pos) (st : CompilerState) :
    (emit_op_code_with_short op s pos st).errors = st.errors := rfl

@[simp] theorem error_at_token_chunk (token : Token) (etype : CompilerErrorType) (msg : String) (st : CompilerState) :
    (error_at_token token etype msg st).chunk = st.chunk := rfl

@[simp] theorem error_at_token_errors (token : Token) (etype : CompilerErrorType) (msg : String) (st : CompilerState) :
    (error_at_token token etype msg st).errors = st.errors ++ [⟨etype, msg, token⟩] := rfl

/-! ### C10 -/

/-- C10: an `Object` is falsey exactly when it is `Null`, `Bool false`,
`Int 0`, or the float zero; every other value — empty strings, empty
arrays, empty tuples, empty dicts, NaN floats, functions and closures —
is truthy. -/
theorem c10_is_falsey_characterization :
    (∀ o : Object, o.is_falsey = true ↔
       (o = .Null ∨ o = .Bool false ∨ o = .Int 0 ∨ o = .Float (.num 0))) ∧
    Object.is_falsey (.String "") = false ∧
    Object.is_falsey (.Array []) = false ∧
    Object.is_falsey (.Tuple []) = false ∧
    Object.is_falsey (.Dict []) = false ∧
    Object.is_falsey (.Float .nan) = false ∧
    (∀ f : FuncObject, Object.is_falsey (.Function f) = false ∧
       Object.is_falsey (.Closure f) = false) := by
  refine ⟨fun o => ?_, rfl, rfl, rfl, rfl, rfl, fun f => ⟨rfl, rfl⟩⟩
  cases o <;> simp [Object.is_falsey, F64.isZero]
  case Float x => cases x <;> simp [F64.isZero]

/-! ### C1 -/

/-- `add_literal_to_pool` on an integer object with `load` set, when the
pool has room: the integer is appended (integers are not deduplicated)
and a load-constant instruction for the fresh index is emitted. -/
theorem add_literal_to_pool_int_load (x : Int) (token : Token) (st : CompilerState)
    (h : st.chunk.constants.length < 65536) :
    ((add_literal_to_pool (.Int x) token true st).1.chunk.bytes =
       st.chunk.bytes ++ load_constant_bytes st.chunk.constants.length) ∧
    ((add_literal_to_pool (.Int x) token true st).1.chunk.constants =
       st.chunk.constants ++ [.Int x]) ∧
    ((add_literal_to_pool (.Int x) token true st).1.errors = st.errors) := by
  simp only [add_literal_to_pool, add_constant, h, if_pos, load_constant_bytes]
  by_cases h2 : st.chunk.constants.length < 256 <;>
    simp [h2, usize_as_u8, usize_as_u16, Nat.mod_eq_of_lt, Nat.mod_eq_of_lt h]

/-- C1 (amended): integer-literal encoding.  `0` and `1` use dedicated
opcodes; `[2, 255]` uses `LoadImmN` with a 1-byte operand; `[256, 65534]`
uses `LoadImmNLong` with a 2-byte operand; every other integer — 65535
included, along with 65536 and all negative integers — is appended to the
constant pool and loaded with a load-constant instruction. -/
theorem c1_integer_literal_encoding (x : Int) (token : Token) (st : CompilerState)
    (hpool : st.chunk.constants.length < 65536) :
    ((compile_literal_expr (.Int x) token st).chunk.bytes =
       st.chunk.bytes ++
         (if x = 0 then [.op .LoadImm0I]
          else if x = 1 then [.op .LoadImm1I]
          else if 1 < x ∧ x < 256 then [.op .LoadImmN, .raw (i64_as_u8 x)]
          else if 256 ≤ x ∧ x < 65535 then
            [.op .LoadImmNLong, .raw (i64_as_u16 x / 256), .raw (i64_as_u16 x % 256)]
          else load_constant_bytes st.chunk.constants.length)) ∧
    ((compile_literal_expr (.Int x) token st).chunk.constants =
       st.chunk.constants ++
         (if x = 0 ∨ x = 1 ∨ (1 < x ∧ x < 65535) then [] else [.Int x])) ∧
    ((compile_literal_expr (.Int x) token st).errors = st.errors) := by
  have hp := add_literal_to_pool_int_load x token st hpool
  by_cases h0 : x = 0
  · simp [compile_literal_expr, h0]
  by_cases h1 : x = 1
  · simp [compile_literal_expr, h1]
  by_cases hgt : 1 < x
  · by_cases hb : x < 256
    · simp [compile_literal_expr, h0, h1, hgt, hb, hgt.le, not_lt.mpr hgt.le]
      omega
    · by_cases hs : x < 65535
      · have h256 : (256 : Int) ≤ x := by omega
        simp [compile_literal_expr, h0, h1, hgt, hb, hs, h256]
      · have : ¬(256 ≤ x ∧ x < 65535) := by omega
        simp [compile_literal_expr, h0, h1, hgt, not_lt.mpr (not_lt.mp hb), hs, this, hp.1, hp.2.1, hp.2.2]
  · have : ¬(1 < x ∧ x < 256) := by omega
    have h2 : ¬(256 ≤ x ∧ x < 65535) := by omega
    have h3 : ¬(x = 0 ∨ x = 1 ∨ (1 < x ∧ x < 65535)) := by omega
    simp [compile_literal_expr, h0, h1, hgt, this, h2, h3, hp.1, hp.2.1, hp.2.2]

/-- Witness for `c1_integer_literal_encoding` at the negative integer
`-7` and a fresh state. -/
theorem c1_integer_literal_encoding_witness :
    st0.chunk.constants.length < 65536 ∧
    (compile_literal_expr (.Int (-7)) tok0 st0).errors = st0.errors :=
  ⟨by decide, (c1_integer_literal_encoding (-7) tok0 st0 (by decide)).2.2⟩

/-- C1 counterexample: the integer literal 65535 does not use the
`LoadImmShort` (`LoadImmNLong`) form the claim assigns to `[256, 65535]`;
it is added to the constant pool and loaded with `LoadConstant`. -/
theorem c1_counterexample :
    (compile_literal_expr (.Int 65535) tok0 st0).chunk.bytes = [.op .LoadConstant, .raw 0] ∧
    (compile_literal_expr (.Int 65535) tok0 st0).chunk.bytes ≠
      [.op .LoadImmNLong, .raw 255, .raw 255] ∧
    (compile_literal_expr (.Int 65535) tok0 st0).chunk.constants = [.Int 65535] :=
  ⟨by decide, by decide, by rfl⟩

/-! ### C9 -/

/-- C9: a ternary `c ? a : b` compiles exactly as the if/else statement
with condition `c`, then-branch `a` and else-branch `b`; the shared
lowering compiles `c`, emits a popping `JumpIfFalsePop` forward jump,
compiles `a`, emits `Jump`, patches the false target, compiles `b`, and
patches the end target. -/
theorem c9_ternary_equals_if (condition branch_true branch_false : ASTNode)
    (true_tok false_tok : Token) (st : CompilerState) :
    compile_node (.TernaryConditional condition branch_true branch_false true_tok false_tok) st =
      compile_if_stmt condition true_tok branch_true (some branch_false) (some false_tok) st ∧
    compile_if_stmt condition true_tok branch_true (some branch_false) (some false_tok) st =
      (let st1 := compile_node condition st
       let rf := emit_jump .JumpIfFalsePop true_tok st1
       let st2 := compile_node branch_true rf.1
       let re := emit_jump .Jump true_tok st2
       let st3 := patch_jump rf.2 true_tok re.1
       let st4 := compile_node branch_false st3
       patch_jump re.2 true_tok st4) :=
  ⟨rfl, rfl⟩

/-! ### C3 -/

/-- C3 (amended): a call compiles the callee, then each argument in
left-to-right source order, then `FuncCall` whose 1-byte operand is the
argument count reduced modulo 256; no diagnostic is produced, so a call
with more than 255 arguments silently wraps the count byte. -/
theorem c3_call_lowering (target : ASTNode) (args : List ASTNode) (pos : Pos) (st : CompilerState) :
    compile_node (.FunctionCallExpr target args pos) st =
      emit_op_code_with_byte .FuncCall (usize_as_u8 args.length) pos
        (compile_nodes_fwd args (compile_node target st)) ∧
    (compile_node (.FunctionCallExpr target args pos) st).errors =
      (compile_nodes_fwd args (compile_node target st)).errors :=
  ⟨rfl, by rw [show compile_node (.FunctionCallExpr target args pos) st =
      emit_op_code_with_byte .FuncCall (usize_as_u8 args.length) pos
        (compile_nodes_fwd args (compile_node target st)) from rfl]; simp⟩

set_option maxRecDepth 100000 in
/-- C3 counterexample: a call with 256 null-literal arguments produces no
diagnostic at all (in particular no `TooManyArgs`), and its `FuncCall`
count byte is 0 = 256 mod 256. -/
theorem c3_counterexample :
    (List.replicate 256 (ASTNode.Literal .Null tok0)).length = 256 ∧
    (compile_node (.FunctionCallExpr (.Literal .Null tok0)
        (List.replicate 256 (.Literal .Null tok0)) (1, 1)) st0).errors = [] ∧
    (compile_node (.FunctionCallExpr (.Literal .Null tok0)
        (List.replicate 256 (.Literal .Null tok0)) (1, 1)) st0).chunk.bytes.drop 257 =
      [.op .FuncCall, .raw 0] :=
  ⟨by decide, by decide, by decide⟩

/-! ### C2 -/

/-- C2 (amended): a compound property assignment `obj.p op= rhs`
(`opr_type` not `None`) compiles the receiver, interns the property name,
then recompiles the whole getter expression — compiling the receiver a
second time — before compiling the rhs, emitting the binary opcode, and
emitting `SetProp`; no duplicate-receiver instruction is involved.  The
second conjunct records that the getter expression itself begins by
compiling the receiver. -/
theorem c2_compound_setter_recompiles_getter (target : ASTNode) (setter : Token)
    (value : ASTNode) (opr_type : ReassignmentType) (st : CompilerState)
    (h : opr_type ≠ .None) :
    compile_node (.ObjectSetter target setter value opr_type) st =
      (let st1 := compile_node target st
       let prop_lineno : Pos := (setter.line_num, setter.column_num)
       match add_literal_to_pool (.String setter.lexeme) setter false st1 with
       | (st2, some pos) =>
           let st3 := compile_node (.ObjectGetter target setter) st2
           let st4 := compile_node value st3
           let st5 := emit_reassign_op opr_type prop_lineno st4
           if pos < 256 then emit_op_code_with_byte .SetProp (usize_as_u8 pos) prop_lineno st5
           else emit_op_code_with_short .SetPropLong pos prop_lineno st5
       | (st2, none) => st2) ∧
    compile_node (.ObjectGetter target setter) st =
      (let st1 := compile_node target st
       let prop_lineno : Pos := (setter.line_num, setter.column_num)
       match add_literal_to_pool (.String setter.lexeme) setter false st1 with
       | (st2, some pos) =>
           if pos < 256 then emit_op_code_with_byte .GetProp (usize_as_u8 pos) prop_lineno st2
           else emit_op_code_with_short .GetPropLong pos prop_lineno st2
       | (st2, none) => st2) := by
  cases opr_type <;> first
    | exact absurd rfl h
    | exact ⟨rfl, rfl⟩

/-- Witness for `c2_compound_setter_recompiles_getter` at `(2).p += 1`
from a fresh state. -/
theorem c2_compound_setter_recompiles_getter_witness :
    ReassignmentType.Plus ≠ ReassignmentType.None ∧
    compile_node (.ObjectGetter (.Literal (.Int 2) tok0) tokP) st0 =
      (let st1 := compile_node (.Literal (.Int 2) tok0) st0
       let prop_lineno : Pos := (tokP.line_num, tokP.column_num)
       match add_literal_to_pool (.String tokP.lexeme) tokP false st1 with
       | (st2, some pos) =>
           if pos < 256 then emit_op_code_with_byte .GetProp (usize_as_u8 pos) prop_lineno st2
           else emit_op_code_with_short .GetPropLong pos prop_lineno st2
       | (st2, none) => st2) :=
  ⟨by decide,
   (c2_compound_setter_recompiles_getter (.Literal (.Int 2) tok0) tokP
      (.Literal (.Int 1) tok0) .Plus st0 (by decide)).2⟩

/-- C2 counterexample: compiling `(2).p += 1` emits the receiver's
bytecode (`LoadImmN 2`) twice — once directly and once inside the
recompiled getter — so the receiver sub-expression does not appear
exactly once in the output, and no duplicate-receiver instruction is
emitted. -/
theorem c2_counterexample :
    (compile_node (.ObjectSetter (.Literal (.Int 2) tok0) tokP
        (.Literal (.Int 1) tok0) .Plus) st0).chunk.bytes =
      [.op .LoadImmN, .raw 2, .op .LoadImmN, .raw 2, .op .GetProp, .raw 0,
       .op .LoadImm1I, .op .Add, .op .SetProp, .raw 0] ∧
    ((compile_node (.ObjectSetter (.Literal (.Int 2) tok0) tokP
        (.Literal (.Int 1) tok0) .Plus) st0).chunk.bytes.count (.op .LoadImmN)) = 2 :=
  ⟨by decide, by decide⟩

/-! ### C4 -/

/-- C4 (amended): in the current compiler's `named_variable`
(`src/compiler/expressions.rs`), every get or set of a global, local, or
upvalue emits the short opcode with a 1-byte operand exactly when the
resolved index is below 256, and the distinct long opcode with a 2-byte
operand otherwise — for all six opcode families.  The legacy single-pass
compiler (`src/compiler/statements.rs`) does not follow this rule: its
`named_variable` and `define_variable` always emit `OP_GET_GLOBAL_VAR` /
`OP_DEFINE_GLOBAL_VAR` with a 2-byte operand. -/
theorem c4_short_long_selection (p : Nat) (token : Token) (st : CompilerState)
    (idx : Nat) (otoken : Token) (ost : Legacy.OldState) :
    ((named_variable (.Global p) token false st).chunk.bytes =
       st.chunk.bytes ++ var_op_bytes .GetGlobal .GetGlobalLong p) ∧
    ((named_variable (.Global p) token true st).chunk.bytes =
       st.chunk.bytes ++ var_op_bytes .SetGlobal .SetGlobalLong p) ∧
    ((named_variable (.Local p) token false st).chunk.bytes =
       st.chunk.bytes ++ var_op_bytes .GetLocal .GetLocalLong p) ∧
    ((named_variable (.Local p) token true st).chunk.bytes =
       st.chunk.bytes ++ var_op_bytes .SetLocal .SetLocalLong p) ∧
    ((named_variable (.UpValue p) token false st).chunk.bytes =
       st.chunk.bytes ++ var_op_bytes .GetUpVal .GetUpValLong p) ∧
    ((named_variable (.UpValue p) token true st).chunk.bytes =
       st.chunk.bytes ++ var_op_bytes .SetUpVal .SetUpValLong p) ∧
    ((Legacy.named_variable otoken ost).bytes =
       (match Legacy.add_identifier_to_pool otoken ost with
        | (ost2, .Pos x) => ost2.bytes ++ [.op .OP_GET_GLOBAL_VAR, .raw (x / 256), .raw (x % 256)]
        | (ost2, .Error) => ost2.bytes)) ∧
    ((Legacy.define_variable idx ost).bytes =
       ost.bytes ++ [.op .OP_DEFINE_GLOBAL_VAR, .raw (idx / 256), .raw (idx % 256)]) := by
  refine ⟨?_, ?_, ?_, ?_, ?_, ?_, ?_, ?_⟩
  · by_cases h : p < 256 <;> simp [named_variable, emit_var_op, var_op_bytes, h]
  · by_cases h : p < 256 <;> simp [named_variable, emit_var_op, var_op_bytes, h]
  · by_cases h : p < 256 <;> simp [named_variable, emit_var_op, var_op_bytes, h]
  · by_cases h : p < 256 <;> simp [named_variable, emit_var_op, var_op_bytes, h]
  · by_cases h : p < 256 <;> simp [named_variable, emit_var_op, var_op_bytes, h]
  · by_cases h : p < 256 <;> simp [named_variable, emit_var_op, var_op_bytes, h]
  · rcases hh : Legacy.add_identifier_to_pool otoken ost with ⟨ost2, cp⟩
    unfold Legacy.named_variable
    rw [hh]
    cases cp <;> simp [Legacy.emit_short, Legacy.emit_op_code, Legacy.error_at_current]
  · simp [Legacy.define_variable, Legacy.emit_short, Legacy.emit_op_code]

/-- C4 counterexample: the legacy compiler's `named_variable` emits a get
of a global whose pool index is 0 (below 256) with a 2-byte operand and a
single opcode `OP_GET_GLOBAL_VAR` — not a 1-byte short form. -/
theorem c4_counterexample :
    (Legacy.named_variable tok0 ost0).bytes =
      [.op .OP_GET_GLOBAL_VAR, .raw 0, .raw 0] ∧
    (Legacy.named_variable tok0 ost0).constants = [.String "t"] ∧
    (0 : Nat) < 256 :=
  ⟨by decide, rfl, by decide⟩

/-! ### C5 -/

/-- The 1-byte-index upvalue loop appends exactly the pure encoding
`upval_bytes_b` and touches nothing else. -/
theorem emit_upvals_byte_idx_spec (ups : List UpValue) (pos : Pos) (st : CompilerState) :
    (emit_upvals_byte_idx ups pos st).chunk.bytes = st.chunk.bytes ++ upval_bytes_b ups ∧
    (emit_upvals_byte_idx ups pos st).chunk.constants = st.chunk.constants ∧
    (emit_upvals_byte_idx ups pos st).errors = st.errors := by
  induction ups generalizing st with
  | nil => simp [emit_upvals_byte_idx, upval_bytes_b]
  | cons u rest ih => simp [emit_upvals_byte_idx, upval_bytes_b, ih]

/-- The 2-byte-index upvalue loop appends exactly the pure encoding
`upval_bytes_s` and touches nothing else. -/
theorem emit_upvals_short_idx_spec (ups : List UpValue) (pos : Pos) (st : CompilerState) :
    (emit_upvals_short_idx ups pos st).chunk.bytes = st.chunk.bytes ++ upval_bytes_s ups ∧
    (emit_upvals_short_idx ups pos st).chunk.constants = st.chunk.constants ∧
    (emit_upvals_short_idx ups pos st).errors = st.errors := by
  induction ups generalizing st with
  | nil => simp [emit_upvals_short_idx, upval_bytes_s]
  | cons u rest ih => simp [emit_upvals_short_idx, upval_bytes_s, ih]

/-- `add_literal_to_pool` on a function object without loading, when the
pool has room: functions are not deduplicated, so the object is appended
at the fresh index. -/
theorem add_literal_to_pool_function_noload (f : FuncObject) (token : Token) (st : CompilerState)
    (h : st.chunk.constants.length < 65536) :
    add_literal_to_pool (.Function f) token false st =
      ({ st with chunk := st.chunk.appendConst (.Function f) }, some st.chunk.constants.length) := by
  simp [add_literal_to_pool, add_constant, h]

/-- `add_literal_to_pool` on a function object with `load` set, when the
pool has room: the object is appended and a load-constant instruction for
the fresh index is emitted. -/
theorem add_literal_to_pool_function_load (f : FuncObject) (token : Token) (st : CompilerState)
    (h : st.chunk.constants.length < 65536) :
    ((add_literal_to_pool (.Function f) token true st).1.chunk.bytes =
       st.chunk.bytes ++ load_constant_bytes st.chunk.constants.length) ∧
    ((add_literal_to_pool (.Function f) token true st).1.chunk.constants =
       st.chunk.constants ++ [.Function f]) ∧
    ((add_literal_to_pool (.Function f) token true st).1.errors = st.errors) := by
  simp only [add_literal_to_pool, add_constant, h, if_pos, load_constant_bytes]
  by_cases h2 : st.chunk.constants.length < 256 <;>
    simp [h2, usize_as_u8, usize_as_u16, Nat.mod_eq_of_lt, Nat.mod_eq_of_lt h]

/-- C5: `emit_function`.  A function with no upvalues is appended to the
parent pool and loaded with a plain load-constant instruction (no
`MakeClosure`); a function with upvalues is appended to the pool and one
of the four `MakeClosure` variants is emitted — selected by whether the
constant index is below 256 and whether the upvalue count is below 256 —
followed by one entry per upvalue: an `is_local` byte (1/0) plus a 1-byte
index for the non-Large forms or a 2-byte index for the Large forms. -/
theorem c5_closure_emission (f : FuncObject) (ups : List UpValue) (token : Token)
    (st : CompilerState) (hpool : st.chunk.constants.length < 65536) :
    (emit_function f ups token st).chunk.constants = st.chunk.constants ++ [.Function f] ∧
    (emit_function f ups token st).errors = st.errors ∧
    (emit_function f ups token st).chunk.bytes =
      st.chunk.bytes ++
        (if ups.length = 0 then load_constant_bytes st.chunk.constants.length
         else if st.chunk.constants.length < 256 then
           if ups.length < 256 then
             [.op .MakeClosure, .raw (usize_as_u8 st.chunk.constants.length)] ++ upval_bytes_b ups
           else
             [.op .MakeClosureLarge, .raw (usize_as_u8 st.chunk.constants.length)] ++ upval_bytes_s ups
         else if ups.length < 256 then
           [.op .MakeClosureLong, .raw (st.chunk.constants.length / 256),
            .raw (st.chunk.constants.length % 256)] ++ upval_bytes_b ups
         else
           [.op .MakeClosureLongLarge, .raw (st.chunk.constants.length / 256),
            .raw (st.chunk.constants.length % 256)] ++ upval_bytes_s ups) := by
  by_cases hu : ups.length = 0
  · have hl := add_literal_to_pool_function_load f token st hpool
    simp [emit_function, hu, hl.1, hl.2.1, hl.2.2]
  · have hn := add_literal_to_pool_function_noload f token st hpool
    by_cases hidx : st.chunk.constants.length < 256 <;> by_cases hcnt : ups.length < 256 <;>
      simp [emit_function, hu, hn, hidx, hcnt,
        emit_upvals_byte_idx_spec, emit_upvals_short_idx_spec]

/-- Witness for `c5_closure_emission`: a function with a single local
upvalue from a fresh state keeps the diagnostics list unchanged. -/
theorem c5_closure_emission_witness :
    st0.chunk.constants.length < 65536 ∧
    (emit_function f0 [⟨true, 0⟩] tok0 st0).errors = st0.errors :=
  ⟨by decide, (c5_closure_emission f0 [⟨true, 0⟩] tok0 st0 (by decide)).2.1⟩

/-! ### C6 -/

/-- C6 (amended): compiling a return statement at the top level of the
script reports a `Syntax`-kind diagnostic ("Cannot return outside of
function.") and emits no bytecode; inside a function it compiles the
return expression (or emits `LoadImmNull` when absent), pops the scope,
emits a `CloseUpVal` for each captured local being discarded, iterated in
reverse declaration order, and finally emits `Return`. -/
theorem c6_return_lowering (token : Token) (value : Option ASTNode) (st : CompilerState) :
    if st.compiler_type = .Script then
      compile_return_stmt token value st =
        error_at_token token .SyntaxErr "Cannot return outside of function." st ∧
      (compile_return_stmt token value st).chunk = st.chunk
    else
      compile_return_stmt token value st =
        (let token_pos : Pos := (token.line_num, token.column_num)
         let st1 := match value with
           | some n => compile_node n st
           | none => emit_op_code .LoadImmNull token_pos st
         let r := pop_scope st1.relative_depth st1.symbols
         let st2 := { st1 with symbols := r.1 }
         let st3 := emit_close_up_vals r.2.reverse 0 token_pos st2
         emit_op_code .Return token_pos st3) := by
  obtain ⟨ch, errs, ct, syms, d⟩ := st
  cases ct
  · rw [if_pos rfl]
    exact ⟨rfl, rfl⟩
  · rw [if_neg (by simp)]
    cases value <;> rfl

/-- C6 counterexample: a top-level return is reported with the source's
`Syntax` diagnostic kind, not a dedicated `ReturnOutsideFunction` kind,
and no bytecode is emitted. -/
theorem c6_counterexample :
    (compile_return_stmt tok0 none st0).errors.map (fun e => e.err_type) = [.SyntaxErr] ∧
    CompilerErrorType.SyntaxErr ≠ .ReturnOutsideFunction ∧
    (compile_return_stmt tok0 none st0).chunk.bytes = [] :=
  ⟨by decide, by decide, by decide⟩

/-! ### C7 -/

/-- Compiling a concatenation of node lists forward composes the two
forward compilations. -/
theorem compile_nodes_fwd_append (a b : List ASTNode) (st : CompilerState) :
    compile_nodes_fwd (a ++ b) st = compile_nodes_fwd b (compile_nodes_fwd a st) := by
  induction a generalizing st with
  | nil => rfl
  | cons v rest ih => simp [compile_nodes_fwd, ih]

/-- The reversed element loop equals a forward compilation of the
reversed list: elements are compiled in reverse source order. -/
theorem compile_nodes_rev_eq_fwd_reverse (values : List ASTNode) (st : CompilerState) :
    compile_nodes_rev values st = compile_nodes_fwd values.reverse st := by
  induction values generalizing st with
  | nil => rfl
  | cons v rest ih =>
      simp [compile_nodes_rev, ih, compile_nodes_fwd_append, compile_nodes_fwd]

/-- C7: an array or tuple literal with at most 65535 elements compiles
its elements in reverse source order (equivalently: a forward compilation
of the reversed list), then emits `MakeArray`/`MakeTuple` with a 1-byte
count when the count is below 256 and the Long form with a 2-byte count
otherwise; in particular `[1, 2, 3]` compiles to
`LoadImmN 3, LoadImmN 2, LoadImm1I, MakeArray 3`. -/
theorem c7_array_tuple_lowering (values : List ASTNode) (token : Token) (st : CompilerState)
    (hlen : values.length ≤ 65535) :
    compile_node (.ArrayExpr values token) st =
      (let line_info : Pos := (token.line_num, token.column_num)
       let st1 := compile_nodes_rev values st
       if values.length < 256 then
         emit_op_code_with_byte .MakeArray (usize_as_u8 values.length) line_info st1
       else emit_op_code_with_short .MakeArrayLong (usize_as_u16 values.length) line_info st1) ∧
    compile_node (.TupleExpr values token) st =
      (let line_info : Pos := (token.line_num, token.column_num)
       let st1 := compile_nodes_rev values st
       if values.length < 256 then
         emit_raw_byte (usize_as_u8 values.length) line_info (emit_op_code .MakeTuple line_info st1)
       else emit_short (usize_as_u16 values.length) line_info (emit_op_code .MakeTupleLong line_info st1)) ∧
    compile_nodes_rev values st = compile_nodes_fwd values.reverse st ∧
    (compile_node (.ArrayExpr
        [.Literal (.Int 1) tok0, .Literal (.Int 2) tok0, .Literal (.Int 3) tok0] tok0) st0).chunk.bytes =
      [.op .LoadImmN, .raw 3, .op .LoadImmN, .raw 2, .op .LoadImm1I, .op .MakeArray, .raw 3] := by
  refine ⟨?_, ?_, compile_nodes_rev_eq_fwd_reverse values st, by decide⟩
  · simp only [compile_node]
    rw [if_pos hlen]
  · simp only [compile_node]
    rw [if_pos hlen]

/-- Witness for `c7_array_tuple_lowering` at the literal `[1, 2, 3]`. -/
theorem c7_array_tuple_lowering_witness :
    ([ASTNode.Literal (.Int 1) tok0, .Literal (.Int 2) tok0, .Literal (.Int 3) tok0].length ≤ 65535) ∧
    compile_nodes_rev [ASTNode.Literal (.Int 1) tok0, .Literal (.Int 2) tok0, .Literal (.Int 3) tok0] st0 =
      compile_nodes_fwd [ASTNode.Literal (.Int 1) tok0, .Literal (.Int 2) tok0, .Literal (.Int 3) tok0].reverse st0 :=
  ⟨by decide,
   (c7_array_tuple_lowering
      [.Literal (.Int 1) tok0, .Literal (.Int 2) tok0, .Literal (.Int 3) tok0] tok0 st0
      (by decide)).2.2.1⟩


/-! ### C8 -/

/-- An array literal beyond the 65535-element limit compiles to a single
`MaxCapacity` report at the literal's token, nothing else. -/
theorem compile_array_expr_overflow (values : List ASTNode) (token : Token) (st : CompilerState)
    (h : ¬ values.length ≤ 65535) :
    compile_node (.ArrayExpr values token) st =
      error_at_token token .MaxCapacity "Too many values in the array." st := by
  simp only [compile_node]
  rw [if_neg h]

/-- A tuple literal beyond the 65535-element limit compiles to a single
`MaxCapacity` report at the literal's token, nothing else. -/
theorem compile_tuple_expr_overflow (values : List ASTNode) (token : Token) (st : CompilerState)
    (h : ¬ values.length ≤ 65535) :
    compile_node (.TupleExpr values token) st =
      error_at_token token .MaxCapacity "Too many values in the tuple." st := by
  simp only [compile_node]
  rw [if_neg h]

/-- C8: an array or tuple literal with more than 65535 elements reports a
`MaxCapacity` diagnostic (the spec's `CapacityExceeded`) at the literal's
token and leaves the chunk untouched — no element bytecode, no
`MakeArray`/`MakeTuple`; a literal with at most 65535 elements (65535
included) adds no such diagnostic beyond those of its elements.  The
final conjunct instantiates the failure at a 65536-element array. -/
theorem c8_capacity_limit (values : List ASTNode) (token : Token) (st : CompilerState) :
    (if 65535 < values.length then
       (compile_node (.ArrayExpr values token) st).chunk = st.chunk ∧
       (compile_node (.ArrayExpr values token) st).errors =
         st.errors ++ [⟨.MaxCapacity, "Too many values in the array.", token⟩] ∧
       (compile_node (.TupleExpr values token) st).chunk = st.chunk ∧
       (compile_node (.TupleExpr values token) st).errors =
         st.errors ++ [⟨.MaxCapacity, "Too many values in the tuple.", token⟩]
     else
       (compile_node (.ArrayExpr values token) st).errors = (compile_nodes_rev values st).errors ∧
       (compile_node (.TupleExpr values token) st).errors = (compile_nodes_rev values st).errors) ∧
    (compile_node (.ArrayExpr (List.replicate 65536 (.Literal .Null tok0)) tok0) st0).errors =
      [⟨.MaxCapacity, "Too many values in the array.", tok0⟩] := by
  constructor
  · by_cases h : 65535 < values.length
    · have h2 : ¬ values.length ≤ 65535 := by omega
      rw [if_pos h, compile_array_expr_overflow values token st h2,
        compile_tuple_expr_overflow values token st h2]
      simp
    · have h2 : values.length ≤ 65535 := by omega
      rw [if_neg h]
      constructor
      · simp only [compile_node]
        rw [if_pos h2]
        by_cases h4 : values.length < 256 <;> simp [h4]
      · simp only [compile_node]
        rw [if_pos h2]
        by_cases h4 : values.length < 256 <;> simp [h4, emit_short]
  · have h3 : ¬ (List.replicate 65536 (ASTNode.Literal .Null tok0)).length ≤ 65535 := by
      rw [List.length_replicate]; omega
    rw [compile_array_expr_overflow _ _ _ h3]
    simp [st0]
